import Mathlib

/-!
Verification of the AlphaTrade advanced strategy orchestration engine
(`src/orders/advanced/{oco,grid,twap}.py` and `src/client/validator.py`)
against its natural-language specification.

The Python code is shallowly embedded: order and strategy statuses are the
string literals the code uses, prices and quantities are exact rationals,
the exchange gateway is an explicit environment parameter (placement and
fill results are passed in), and each background monitoring loop becomes a
step function folded over the list of events or chunks it observes.
-/

namespace AlphaTrade

/- ================================================================
   OCO monitor (src/orders/advanced/oco.py)
   ================================================================ -/

/-- Exchange-side state of a single OCO leg, as returned by
`get_order_status`: one of the strings "NEW", "FILLED", "CANCELED". -/
abbrev LegStatus := String

/-- Effect of `client.cancel_order` on one leg: an open ("NEW") order becomes
"CANCELED"; cancelling a "FILLED" or already-"CANCELED" order raises on the
exchange, which `_cancel_remaining_order` swallows, so the leg keeps its
status. -/
def cancelLeg (s : LegStatus) : LegStatus :=
  if s = "NEW" then "CANCELED" else s

/-- Exchange-side fill of one leg: only an open ("NEW") order can fill. -/
def fillLeg (s : LegStatus) : LegStatus :=
  if s = "NEW" then "FILLED" else s

/-- State of one OCO bracket as tracked by `_monitor_oco_order`: the two leg
statuses the next poll will observe, the strategy `status` field of the
tracking dict, and whether the monitoring loop has exited (`break`). -/
structure OcoState where
  limitStatus : LegStatus
  stopStatus : LegStatus
  status : String
  done : Bool
deriving DecidableEq, Repr

/-- Exchange events interleaved with the polling loop: a leg fills, or an
external actor cancels a leg. -/
inductive OcoEvent where
  | fillLimit
  | fillStop
  | cancelLimit
  | cancelStop
deriving DecidableEq, Repr

/-- Apply one exchange event to the legs. -/
def applyOcoEvent (s : OcoState) (e : OcoEvent) : OcoState :=
  match e with
  | .fillLimit => { s with limitStatus := fillLeg s.limitStatus }
  | .fillStop => { s with stopStatus := fillLeg s.stopStatus }
  | .cancelLimit => { s with limitStatus := cancelLeg s.limitStatus }
  | .cancelStop => { s with stopStatus := cancelLeg s.stopStatus }

/-- One iteration of the polling loop body of `_monitor_oco_order`
(oco.py lines 231-250): if the limit (take-profit) leg is observed FILLED,
cancel the stop leg, set status "LIMIT_FILLED" and break; else if the stop
leg is observed FILLED, cancel the limit leg, set status "STOP_FILLED" and
break; else if both legs are observed CANCELED, set status "CANCELLED" and
break. -/
def monitorOcoStep (s : OcoState) : OcoState :=
  if s.limitStatus = "FILLED" then
    { s with stopStatus := cancelLeg s.stopStatus, status := "LIMIT_FILLED", done := true }
  else if s.stopStatus = "FILLED" then
    { s with limitStatus := cancelLeg s.limitStatus, status := "STOP_FILLED", done := true }
  else if s.limitStatus = "CANCELED" ∧ s.stopStatus = "CANCELED" then
    { s with status := "CANCELLED", done := true }
  else s

/-- One monitored step: the exchange event happens, then (unless the loop has
already exited) the 5-second poll observes the legs and reacts.  Polling at
the code's fixed interval observes each event before the next arrives. -/
def ocoStep (s : OcoState) (e : OcoEvent) : OcoState :=
  let s1 := applyOcoEvent s e
  if s1.done then s1 else monitorOcoStep s1

/-- Initial tracking state built by `execute_oco_order` after both legs are
placed: both legs open, strategy ACTIVE, monitor running. -/
def initialOcoState : OcoState :=
  ⟨"NEW", "NEW", "ACTIVE", false⟩

/-- Run the monitor over a sequence of observed exchange events. -/
def runOco (es : List OcoEvent) : OcoState :=
  es.foldl ocoStep initialOcoState

/-- All states reachable from `initialOcoState` under `ocoStep`. -/
def ocoReachable : List OcoState :=
  [⟨"NEW", "NEW", "ACTIVE", false⟩,
   ⟨"CANCELED", "NEW", "ACTIVE", false⟩,
   ⟨"NEW", "CANCELED", "ACTIVE", false⟩,
   ⟨"FILLED", "CANCELED", "LIMIT_FILLED", true⟩,
   ⟨"CANCELED", "FILLED", "STOP_FILLED", true⟩,
   ⟨"CANCELED", "CANCELED", "CANCELLED", true⟩]

theorem ocoStep_mem (s : OcoState) (e : OcoEvent) (h : s ∈ ocoReachable) :
    ocoStep s e ∈ ocoReachable := by
  fin_cases h <;> cases e <;> decide

theorem foldl_ocoStep_mem (es : List OcoEvent) :
    ∀ s, s ∈ ocoReachable → es.foldl ocoStep s ∈ ocoReachable := by
  induction es with
  | nil => intro s h; exact h
  | cons e es ih => intro s h; exact ih _ (ocoStep_mem s e h)

theorem runOco_mem (es : List OcoEvent) : runOco es ∈ ocoReachable :=
  foldl_ocoStep_mem es initialOcoState (by decide)

/-- C1 counterexample: when the take-profit (limit) leg is the first leg
observed FILLED, `_monitor_oco_order` sets the strategy status to the string
"LIMIT_FILLED" (oco.py line 235), not to "TAKE_PROFIT_FILLED" as the claim
states. -/
theorem oco_status_name_counterexample :
    (runOco [OcoEvent.fillLimit]).limitStatus = "FILLED" ∧
    (runOco [OcoEvent.fillLimit]).status = "LIMIT_FILLED" ∧
    (runOco [OcoEvent.fillLimit]).status ≠ "TAKE_PROFIT_FILLED" := by
  decide

/-- C1 (amended): for every ordering in which the monitoring loop observes
fill and cancel events on the two legs, at most one leg ever ends FILLED;
the first leg observed FILLED causes the other leg to be cancelled and the
strategy status to be set to the corresponding terminal value
("LIMIT_FILLED" when the take-profit/limit leg fills, "STOP_FILLED" when the
stop leg fills), after which polling stops; the two legs are never both left
open and never both FILLED. -/
theorem oco_first_fill_wins (es : List OcoEvent) :
    (¬((runOco es).limitStatus = "FILLED" ∧ (runOco es).stopStatus = "FILLED"))
    ∧ ((runOco es).status = "LIMIT_FILLED" →
        (runOco es).limitStatus = "FILLED" ∧ (runOco es).stopStatus = "CANCELED" ∧
        (runOco es).done = true)
    ∧ ((runOco es).status = "STOP_FILLED" →
        (runOco es).stopStatus = "FILLED" ∧ (runOco es).limitStatus = "CANCELED" ∧
        (runOco es).done = true)
    ∧ ((runOco es).done = false → (runOco es).status = "ACTIVE") := by
  have h : runOco es ∈ ocoReachable := runOco_mem es
  simp only [ocoReachable, List.mem_cons, List.not_mem_nil, or_false] at h
  rcases h with h | h | h | h | h | h <;> rw [h] <;> decide

/- ================================================================
   OCO start failure cleanup (src/orders/advanced/oco.py)
   ================================================================ -/

/-- Outcome of an attempted OCO start: the value returned to the caller (or
the propagated error), the exchange-side order book restricted to the orders
this start created, and the `monitoring_orders` registry entries it added. -/
structure OcoStartOutcome where
  result : Except String (Nat × Nat)
  exchangeOrders : List (Nat × String)
  registry : List String
deriving Repr

/-- Effect of `client.cancel_order` on the exchange order book. -/
def cancelOnExchange (orders : List (Nat × String)) (oid : Nat) : List (Nat × String) :=
  orders.map (fun p => if p.1 = oid then (p.1, "CANCELED") else p)

/-- Placement phase of `execute_oco_order` (oco.py lines 78-125): place the
limit (take-profit) leg, then the stop leg; on any failure run
`_cleanup_failed_oco`, which cancels every already-placed leg (swallowing
cancel failures) before the exception is re-raised.  `limRes`/`stopRes` are
the gateway's placement results (`none` models a raised `PlacementError`),
and `cancelOk` models whether the best-effort cleanup cancel succeeds on the
exchange.  Monitoring and registration (`_start_oco_monitoring`) only happen
when both legs placed. -/
def executeOcoStart (limRes stopRes : Option Nat) (cancelOk : Bool) : OcoStartOutcome :=
  match limRes with
  | none => ⟨.error "limit placement failed", [], []⟩
  | some lid =>
    let ex1 := [(lid, "NEW")]
    match stopRes with
    | some sid => ⟨.ok (lid, sid), ex1 ++ [(sid, "NEW")], ["OCO"]⟩
    | none =>
      let ex2 := if cancelOk then cancelOnExchange ex1 lid else ex1
      ⟨.error "stop placement failed", ex2, []⟩

/-- C7: if the first (take-profit limit) leg is placed and the second (stop)
leg fails to place, the first leg is cancelled before the error propagates
to the caller, so no orphaned leg survives the failed start and the strategy
is never registered. -/
theorem oco_failed_start_cleanup (lid : Nat) (cancelOk : Bool)
    (h : cancelOk = true) :
    executeOcoStart (some lid) none cancelOk =
      ⟨.error "stop placement failed", [(lid, "CANCELED")], []⟩ := by
  subst h
  simp [executeOcoStart, cancelOnExchange]

/-- Witness for C7 at a concrete order id. -/
theorem oco_failed_start_cleanup_witness :
    executeOcoStart (some 7) none true =
      ⟨.error "stop placement failed", [(7, "CANCELED")], []⟩ :=
  oco_failed_start_cleanup 7 true rfl

/- ================================================================
   Grid ladder calculator (src/orders/advanced/grid.py)
   ================================================================ -/

/-- Python 3 `round` to the nearest integer, ties to the even integer
(banker's rounding), on exact rationals. -/
def pyRound (q : ℚ) : ℤ :=
  if q - ⌊q⌋ < 1/2 then ⌊q⌋
  else if (1 : ℚ)/2 < q - ⌊q⌋ then ⌊q⌋ + 1
  else if ⌊q⌋ % 2 = 0 then ⌊q⌋ else ⌊q⌋ + 1

theorem floor_le_pyRound (q : ℚ) : ⌊q⌋ ≤ pyRound q := by
  unfold pyRound; split_ifs <;> omega

theorem pyRound_le_floor_add_one (q : ℚ) : pyRound q ≤ ⌊q⌋ + 1 := by
  unfold pyRound; split_ifs <;> omega

theorem pyRound_mono {x y : ℚ} (h : x ≤ y) : pyRound x ≤ pyRound y := by
  have hf : ⌊x⌋ ≤ ⌊y⌋ := Int.floor_le_floor h
  rcases lt_or_eq_of_le hf with hlt | heq
  · calc pyRound x ≤ ⌊x⌋ + 1 := pyRound_le_floor_add_one x
      _ ≤ ⌊y⌋ := by omega
      _ ≤ pyRound y := floor_le_pyRound y
  · unfold pyRound
    rw [← heq]
    have hxy : x - ⌊x⌋ ≤ y - ⌊x⌋ := by linarith
    split_ifs <;> first | omega | (exfalso; linarith)

/-- Python `round(x, 1)`: round to one decimal place, ties to even. -/
def round1 (q : ℚ) : ℚ :=
  (pyRound (q * 10) : ℚ) / 10

theorem round1_mono {x y : ℚ} (h : x ≤ y) : round1 x ≤ round1 y := by
  unfold round1
  have h10 : x * 10 ≤ y * 10 := by linarith
  have := pyRound_mono h10
  have hc : ((pyRound (x * 10) : ℚ)) ≤ ((pyRound (y * 10) : ℚ)) := by
    exact_mod_cast this
  linarith

/-- One entry of `symbol_info['filters']` as consumed by
`_calculate_grid_levels` (only the fields it reads). -/
structure SymbolFilter where
  filterType : String
  tickSize : ℚ
deriving DecidableEq, Repr

/-- Tick-size resolution of `_calculate_grid_levels` (grid.py lines 127-138):
query the symbol filters, take `tickSize` of the first PRICE_FILTER entry,
and fall back to 0.1 when the lookup raises (`none`) or no PRICE_FILTER
entry exists. -/
def resolveTickSize (info : Option (List SymbolFilter)) : ℚ :=
  match info with
  | none => 1/10
  | some filters =>
    match filters.find? (fun f => f.filterType == "PRICE_FILTER") with
    | some f => f.tickSize
    | none => 1/10

/-- One grid level as built by `_calculate_grid_levels` (the display-only
`side_color` field and the initial `'PENDING'` status are omitted). -/
structure GridLevelRec where
  level : Nat
  price : ℚ
  orderType : String
deriving DecidableEq, Repr

/-- Raw (pre-rounding) price of level index `i`:
`lower_price + i * (upper_price - lower_price) / (grid_count - 1)`. -/
def gridLevelRawPrice (lower upper : ℚ) (count : ℕ) (i : ℕ) : ℚ :=
  lower + i * ((upper - lower) / ((count : ℚ) - 1))

/-- Rounded price of level index `i` (grid.py lines 142-146): snap the raw
price to the tick grid with Python `round`, then round to 1 decimal. -/
def gridLevelPrice (tick lower upper : ℚ) (count : ℕ) (i : ℕ) : ℚ :=
  round1 ((pyRound (gridLevelRawPrice lower upper count i / tick) : ℚ) * tick)

/-- Role classification (grid.py lines 149-157): strictly below the current
market price is "BUY", strictly above is "SELL", equal is "MARKET". -/
def classifyLevel (price current : ℚ) : String :=
  if price < current then "BUY" else if current < price then "SELL" else "MARKET"

/-- The ladder produced by `_calculate_grid_levels` for a resolved tick size:
levels are numbered from 1. -/
def calcGridLevels (tick current lower upper : ℚ) (count : ℕ) : List GridLevelRec :=
  (List.range count).map (fun i =>
    let price := gridLevelPrice tick lower upper count i
    ⟨i + 1, price, classifyLevel price current⟩)

/-- Full `_calculate_grid_levels` including its tick-size lookup: the symbol
queried is the hardcoded string "BTCUSDT" (grid.py line 129), whatever
symbol the grid strategy trades. -/
def calculateGridLevels (env : String → Option (List SymbolFilter))
    (lower upper : ℚ) (count : ℕ) (current : ℚ) : List GridLevelRec :=
  calcGridLevels (resolveTickSize (env "BTCUSDT")) current lower upper count

set_option linter.unusedVariables false in
/-- Ladder computation as invoked from `execute_grid_strategy` for a strategy
on `symbol`: the strategy symbol is not passed down to the ladder
calculator. -/
def gridLevelsForSymbol (env : String → Option (List SymbolFilter))
    (symbol : String) (lower upper : ℚ) (count : ℕ) (current : ℚ) : List GridLevelRec :=
  calculateGridLevels env lower upper count current

theorem gridLevelRawPrice_mono (lower upper : ℚ) (count : ℕ)
    (hlu : lower < upper) (hcount : 2 ≤ count) {i j : ℕ} (hij : i ≤ j) :
    gridLevelRawPrice lower upper count i ≤ gridLevelRawPrice lower upper count j := by
  unfold gridLevelRawPrice
  have hden : (0 : ℚ) < (count : ℚ) - 1 := by
    have h2 : (2 : ℚ) ≤ (count : ℚ) := by exact_mod_cast hcount
    linarith
  have hgap : (0 : ℚ) < (upper - lower) / ((count : ℚ) - 1) :=
    div_pos (by linarith) hden
  have hcast : (i : ℚ) ≤ (j : ℚ) := by exact_mod_cast hij
  nlinarith

theorem gridLevelPrice_mono (tick lower upper : ℚ) (count : ℕ)
    (htick : 0 < tick) (hlu : lower < upper) (hcount : 2 ≤ count)
    {i j : ℕ} (hij : i ≤ j) :
    gridLevelPrice tick lower upper count i ≤ gridLevelPrice tick lower upper count j := by
  unfold gridLevelPrice
  apply round1_mono
  have hraw := gridLevelRawPrice_mono lower upper count hlu hcount hij
  have hdiv : gridLevelRawPrice lower upper count i / tick
      ≤ gridLevelRawPrice lower upper count j / tick := by
    apply div_le_div_of_nonneg_right hraw htick.le
  have hr := pyRound_mono hdiv
  have hrc : ((pyRound (gridLevelRawPrice lower upper count i / tick) : ℚ))
      ≤ ((pyRound (gridLevelRawPrice lower upper count j / tick) : ℚ)) := by
    exact_mod_cast hr
  nlinarith

/-- C6 counterexample: the valid input lowerPrice = 100, upperPrice = 100.1,
gridCount = 3 (current price 105, tick size 0.1) produces the ladder
[100, 100, 100.1]: the first two levels share a price, so the ladder is not
strictly increasing (raw level 100.05 snaps down to the tick multiple
100.0). -/
theorem grid_levels_not_strictly_increasing :
    ((calcGridLevels (1/10) 105 100 (1001/10) 3).map (fun l => l.price)
      = [100, 100, 1001/10])
    ∧ ¬ List.Chain' (fun a b : GridLevelRec => a.price < b.price)
        (calcGridLevels (1/10) 105 100 (1001/10) 3) := by
  have h0 : gridLevelPrice (1/10) 100 (1001/10) 3 0 = 100 := by
    norm_num [gridLevelPrice, gridLevelRawPrice, round1, pyRound]
  have h1 : gridLevelPrice (1/10) 100 (1001/10) 3 1 = 100 := by
    norm_num [gridLevelPrice, gridLevelRawPrice, round1, pyRound]
  have h2 : gridLevelPrice (1/10) 100 (1001/10) 3 2 = 1001/10 := by
    norm_num [gridLevelPrice, gridLevelRawPrice, round1, pyRound]
  have hlv : calcGridLevels (1/10) 105 100 (1001/10) 3
      = [⟨1, 100, "BUY"⟩, ⟨2, 100, "BUY"⟩, ⟨3, 1001/10, "BUY"⟩] := by
    show (List.range 3).map _ = _
    rw [show List.range 3 = [0, 1, 2] from rfl]
    simp only [List.map_cons, List.map_nil]
    rw [h0, h1, h2]
    norm_num [classifyLevel]
  rw [hlv]
  constructor
  · norm_num
  · simp only [List.chain'_cons, List.chain'_singleton, and_true]
    norm_num

/-- C6 (amended): for every valid grid input (lowerPrice < upperPrice,
gridCount ≥ 2, positive tick size, any current price), the ladder has
gridCount levels whose prices are non-decreasing (adjacent levels may
coincide after tick snapping and 1-decimal rounding, so strict increase can
fail); the first level's price is lowerPrice tick-aligned, the last level's
price is upperPrice tick-aligned; and exactly the levels whose (rounded)
price is strictly below the current price are classified "BUY", strictly
above "SELL", equal "MARKET". -/
theorem grid_levels_sorted_endpoints_classified
    (tick current lower upper : ℚ) (count : ℕ)
    (htick : 0 < tick) (hlu : lower < upper) (hcount : 2 ≤ count) :
    ((calcGridLevels tick current lower upper count).length = count)
    ∧ ((calcGridLevels tick current lower upper count).map (fun l => l.price)
        = (List.range count).map (gridLevelPrice tick lower upper count))
    ∧ (∀ i j : ℕ, i ≤ j →
        gridLevelPrice tick lower upper count i ≤ gridLevelPrice tick lower upper count j)
    ∧ (gridLevelPrice tick lower upper count 0
        = round1 ((pyRound (lower / tick) : ℚ) * tick))
    ∧ (gridLevelPrice tick lower upper count (count - 1)
        = round1 ((pyRound (upper / tick) : ℚ) * tick))
    ∧ (∀ l ∈ calcGridLevels tick current lower upper count,
        (l.orderType = "BUY" ↔ l.price < current)
        ∧ (l.orderType = "SELL" ↔ current < l.price)
        ∧ (l.orderType = "MARKET" ↔ l.price = current)) := by
  have hne : ((count : ℚ) - 1) ≠ 0 := by
    have h2 : (2 : ℚ) ≤ (count : ℚ) := by exact_mod_cast hcount
    linarith
  refine ⟨?_, ?_, ?_, ?_, ?_, ?_⟩
  · simp [calcGridLevels]
  · simp [calcGridLevels, List.map_map, Function.comp]
  · intro i j hij
    exact gridLevelPrice_mono tick lower upper count htick hlu hcount hij
  · unfold gridLevelPrice gridLevelRawPrice
    norm_num
  · unfold gridLevelPrice gridLevelRawPrice
    have hcast : (((count - 1 : ℕ) : ℚ)) = (count : ℚ) - 1 := by
      have h1 : 1 ≤ count := by omega
      push_cast [h1]
      ring
    rw [hcast]
    have hraw : lower + ((count : ℚ) - 1) * ((upper - lower) / ((count : ℚ) - 1)) = upper := by
      field_simp
    rw [hraw]
  · intro l hl
    simp only [calcGridLevels, List.mem_map, List.mem_range] at hl
    obtain ⟨i, _, rfl⟩ := hl
    simp only [classifyLevel]
    rcases lt_trichotomy (gridLevelPrice tick lower upper count i) current with h | h | h
    · simp [h, not_lt_of_gt h, ne_of_lt h]
    · simp [h]
    · simp [h, not_lt_of_gt h, (ne_of_lt h).symm, not_lt_of_gt, lt_asymm h]

/-- Witness for C6 (amended) at tick 0.1, current price 105, range
[100, 110], 3 levels. -/
theorem grid_levels_sorted_endpoints_classified_witness :
    ((calcGridLevels (1/10) 105 100 110 3).length = 3)
    ∧ ((calcGridLevels (1/10) 105 100 110 3).map (fun l => l.price)
        = (List.range 3).map (gridLevelPrice (1/10) 100 110 3))
    ∧ (∀ i j : ℕ, i ≤ j →
        gridLevelPrice (1/10) 100 110 3 i ≤ gridLevelPrice (1/10) 100 110 3 j)
    ∧ (gridLevelPrice (1/10) 100 110 3 0
        = round1 ((pyRound (100 / (1/10)) : ℚ) * (1/10)))
    ∧ (gridLevelPrice (1/10) 100 110 3 (3 - 1)
        = round1 ((pyRound (110 / (1/10)) : ℚ) * (1/10)))
    ∧ (∀ l ∈ calcGridLevels (1/10) 105 100 110 3,
        (l.orderType = "BUY" ↔ l.price < 105)
        ∧ (l.orderType = "SELL" ↔ 105 < l.price)
        ∧ (l.orderType = "MARKET" ↔ l.price = 105)) :=
  grid_levels_sorted_endpoints_classified (1/10) 105 100 110 3
    (by norm_num) (by norm_num) (by norm_num)

/-- C10: the ladder calculator ignores the strategy's own symbol: it reads
the tick size from the filters of the hardcoded symbol "BTCUSDT", falls back
to tick 0.1 when that lookup fails or returns no PRICE_FILTER, and rounds
every level price to exactly one decimal place. -/
theorem grid_ladder_uses_btcusdt_filters
    (env : String → Option (List SymbolFilter)) (sym1 sym2 : String)
    (lower upper current : ℚ) (count : ℕ) :
    (gridLevelsForSymbol env sym1 lower upper count current
      = gridLevelsForSymbol env sym2 lower upper count current)
    ∧ (gridLevelsForSymbol env sym1 lower upper count current
      = calcGridLevels (resolveTickSize (env "BTCUSDT")) current lower upper count)
    ∧ (env "BTCUSDT" = none → resolveTickSize (env "BTCUSDT") = 1/10)
    ∧ (∀ fs, env "BTCUSDT" = some fs →
        (∀ f ∈ fs, f.filterType ≠ "PRICE_FILTER") →
        resolveTickSize (env "BTCUSDT") = 1/10)
    ∧ (∀ l ∈ gridLevelsForSymbol env sym1 lower upper count current,
        ∃ z : ℤ, l.price = (z : ℚ) / 10) := by
  refine ⟨rfl, rfl, ?_, ?_, ?_⟩
  · intro h
    simp [resolveTickSize, h]
  · intro fs hfs hnone
    have hfind : fs.find? (fun f => f.filterType == "PRICE_FILTER") = none := by
      rw [List.find?_eq_none]
      intro f hf
      simpa using hnone f hf
    simp [resolveTickSize, hfs, hfind]
  · intro l hl
    simp only [gridLevelsForSymbol, calculateGridLevels, calcGridLevels,
      List.mem_map, List.mem_range] at hl
    obtain ⟨i, _, rfl⟩ := hl
    exact ⟨_, rfl⟩

/- ================================================================
   Grid monitor: counter orders (src/orders/advanced/grid.py)
   ================================================================ -/

/-- The per-strategy order bookkeeping used by `_place_counter_order`: the
computed ladder and the `buy_orders` / `sell_orders` dicts (level ↦ resting
order id). -/
structure GridOrdersState where
  gridLevels : List GridLevelRec
  buyOrders : Nat → Option Nat
  sellOrders : Nat → Option Nat

/-- Price lookup `grid_levels[target_level - 1]['price']`; `none` models the
IndexError path (swallowed by the surrounding try/except). -/
def gridPriceAt (g : GridOrdersState) (lvl : Nat) : Option ℚ :=
  (g.gridLevels.get? (lvl - 1)).map (fun l => l.price)

/-- `_place_counter_order` (grid.py lines 366-394): after a BUY fill at
`filledLevel` (called with side "SELL") place a SELL limit order at level
`filledLevel + 1`'s price whenever `filledLevel < gridCount`, and store it
under that level in `sell_orders`; symmetrically for a SELL fill (side
"BUY") at `filledLevel - 1` whenever `filledLevel > 1`.  The code never
checks whether an order is already resting at the target level — the dict
entry is simply overwritten.  `placeResult` is the gateway's placement
result (`none` models a raised/falsy placement).  Returns the new state and
the list of (side, price, orderId) placements sent to the exchange. -/
def placeCounterOrder (g : GridOrdersState) (filledLevel : Nat) (side : String)
    (placeResult : Option Nat) : GridOrdersState × List (String × ℚ × Nat) :=
  if side = "SELL" ∧ filledLevel < g.gridLevels.length then
    let targetLevel := filledLevel + 1
    if targetLevel ≤ g.gridLevels.length then
      match gridPriceAt g targetLevel with
      | none => (g, [])
      | some price =>
        match placeResult with
        | some oid =>
          ({ g with sellOrders := fun l => if l = targetLevel then some oid else g.sellOrders l },
           [("SELL", price, oid)])
        | none => (g, [])
    else (g, [])
  else if side = "BUY" ∧ 1 < filledLevel then
    let targetLevel := filledLevel - 1
    if 1 ≤ targetLevel then
      match gridPriceAt g targetLevel with
      | none => (g, [])
      | some price =>
        match placeResult with
        | some oid =>
          ({ g with buyOrders := fun l => if l = targetLevel then some oid else g.buyOrders l },
           [("BUY", price, oid)])
        | none => (g, [])
    else (g, [])
  else (g, [])

/-- Concrete three-level grid with a SELL order (id 7) already resting at
level 2. -/
def c3Grid : GridOrdersState :=
  ⟨[⟨1, 100, "BUY"⟩, ⟨2, 105, "MARKET"⟩, ⟨3, 110, "SELL"⟩],
   fun _ => none,
   fun l => if l = 2 then some 7 else none⟩

/-- C3 counterexample: with an order (id 7) already resting at level 2, a
BUY fill at level 1 still places a counter SELL at level 2's price (order id
8) and overwrites the `sell_orders` entry — the claimed "only if no order is
already resting at level L+1" check does not exist in
`_place_counter_order`. -/
theorem grid_counter_order_duplicate_counterexample :
    (c3Grid.sellOrders 2 = some 7)
    ∧ (placeCounterOrder c3Grid 1 "SELL" (some 8)).2 = [("SELL", 105, 8)]
    ∧ (placeCounterOrder c3Grid 1 "SELL" (some 8)).1.sellOrders 2 = some 8 := by
  refine ⟨rfl, ?_, ?_⟩ <;> decide

/-- C3 (amended): after a BUY fill at level L with 1 ≤ L < gridCount, a
counter SELL order is placed at level L+1's price unconditionally — even
when an order is already resting at level L+1, in which case the new order
replaces it in the `sell_orders` map (other levels untouched); symmetrically
a SELL fill at level L with L > 1 places a counter BUY at level L−1's
price unconditionally. -/
theorem grid_counter_order_unconditional
    (g : GridOrdersState) (L oidS oidB : Nat) (ps pb : ℚ)
    (hlen : L < g.gridLevels.length) (hps : gridPriceAt g (L + 1) = some ps)
    (hL : 1 < L) (hpb : gridPriceAt g (L - 1) = some pb) :
    ((placeCounterOrder g L "SELL" (some oidS)).2 = [("SELL", ps, oidS)]
      ∧ (placeCounterOrder g L "SELL" (some oidS)).1.sellOrders (L + 1) = some oidS
      ∧ (∀ l, l ≠ L + 1 →
          (placeCounterOrder g L "SELL" (some oidS)).1.sellOrders l = g.sellOrders l))
    ∧ ((placeCounterOrder g L "BUY" (some oidB)).2 = [("BUY", pb, oidB)]
      ∧ (placeCounterOrder g L "BUY" (some oidB)).1.buyOrders (L - 1) = some oidB
      ∧ (∀ l, l ≠ L - 1 →
          (placeCounterOrder g L "BUY" (some oidB)).1.buyOrders l = g.buyOrders l)) := by
  constructor
  · have hsell : placeCounterOrder g L "SELL" (some oidS)
        = ({ g with sellOrders := fun l => if l = L + 1 then some oidS else g.sellOrders l },
           [("SELL", ps, oidS)]) := by
      unfold placeCounterOrder
      rw [if_pos ⟨rfl, hlen⟩, if_pos (by omega : L + 1 ≤ g.gridLevels.length), hps]
    refine ⟨by rw [hsell], by rw [hsell]; simp, ?_⟩
    intro l hne
    rw [hsell]
    simp [hne]
  · have hbuy : placeCounterOrder g L "BUY" (some oidB)
        = ({ g with buyOrders := fun l => if l = L - 1 then some oidB else g.buyOrders l },
           [("BUY", pb, oidB)]) := by
      unfold placeCounterOrder
      rw [if_neg (by simp), if_pos ⟨rfl, hL⟩, if_pos (by omega : 1 ≤ L - 1), hpb]
    refine ⟨by rw [hbuy], by rw [hbuy]; simp, ?_⟩
    intro l hne
    rw [hbuy]
    simp [hne]

/-- Witness for C3 (amended): level 2 of a three-level grid. -/
theorem grid_counter_order_unconditional_witness :
    ((placeCounterOrder c3Grid 2 "SELL" (some 8)).2 = [("SELL", 110, 8)]
      ∧ (placeCounterOrder c3Grid 2 "SELL" (some 8)).1.sellOrders (2 + 1) = some 8
      ∧ (∀ l, l ≠ 2 + 1 →
          (placeCounterOrder c3Grid 2 "SELL" (some 8)).1.sellOrders l = c3Grid.sellOrders l))
    ∧ ((placeCounterOrder c3Grid 2 "BUY" (some 9)).2 = [("BUY", 100, 9)]
      ∧ (placeCounterOrder c3Grid 2 "BUY" (some 9)).1.buyOrders (2 - 1) = some 9
      ∧ (∀ l, l ≠ 2 - 1 →
          (placeCounterOrder c3Grid 2 "BUY" (some 9)).1.buyOrders l = c3Grid.buyOrders l)) :=
  grid_counter_order_unconditional c3Grid 2 8 9 110 100
    (by decide) (by decide) (by decide) (by decide)

/- ================================================================
   Grid monitor: profit accounting (src/orders/advanced/grid.py)
   ================================================================ -/

/-- One entry of `executed_trades` as read by `_calculate_grid_profit` (the
timestamp and order id fields are omitted). -/
structure TradeRec where
  level : Nat
  side : String
  quantity : ℚ
  price : ℚ
deriving DecidableEq, Repr

/-- The inner `for sell_trade in recent_trades: ... break` loop of
`_calculate_grid_profit`: credit the first SELL in the window with a higher
price and a higher level than `buy`, or nothing. -/
def tradeMatchCredit (recent : List TradeRec) (buy : TradeRec) : ℚ :=
  match recent.find? (fun s =>
      s.side == "SELL" && decide (buy.price < s.price) && decide (buy.level < s.level)) with
  | some s => (s.price - buy.price) * min buy.quantity s.quantity
  | none => 0

/-- One invocation of `_calculate_grid_profit` (grid.py lines 396-414),
called after each new trade is appended: with at least two recorded trades,
scan the last-10 window and, for every BUY in it, add the credit of its
first matching SELL to the running total. -/
def calcGridProfit (trades : List TradeRec) (profit : ℚ) : ℚ :=
  if 2 ≤ trades.length then
    let recent := trades.drop (trades.length - 10)
    recent.foldl (fun p buy => if buy.side == "BUY" then p + tradeMatchCredit recent buy else p)
      profit
  else profit

/-- Total credits of one invocation over the last-10 window. -/
def invocationCredits (recent : List TradeRec) : ℚ :=
  ((recent.filter (fun t => t.side == "BUY")).map (tradeMatchCredit recent)).sum

/-- Lifetime of `total_profit` over a sequence of fills: each fill appends a
TradeRecord (`_handle_grid_order_fill`) and then runs
`_calculate_grid_profit` on the whole trade list. -/
def gridProfitRun (tradeSeq : List TradeRec) : ℚ :=
  (tradeSeq.foldl (fun acc t =>
      let trades := acc.1 ++ [t]
      (trades, calcGridProfit trades acc.2)) (([], 0) : List TradeRec × ℚ)).2

/-- C4 counterexample: trades BUY@100 level 1, SELL@110 level 2, BUY@100
level 1 (all quantity 1).  After the second trade the pair (t1, t2) is
credited: profit 10.  After the third trade the window is rescanned with no
matched-pair bookkeeping: t1 is re-matched to t2 (+10) and t3 is matched to
t2 (+10), total 30 — even though accounting that credits each matched pair
at most once yields at most 20 here (at most 10 if each trade participates
in at most one pair, since t2 is the only SELL). -/
theorem grid_profit_recredit_counterexample :
    gridProfitRun [⟨1, "BUY", 1, 100⟩, ⟨2, "SELL", 1, 110⟩] = 10
    ∧ gridProfitRun [⟨1, "BUY", 1, 100⟩, ⟨2, "SELL", 1, 110⟩, ⟨1, "BUY", 1, 100⟩] = 30
    ∧ ¬ gridProfitRun [⟨1, "BUY", 1, 100⟩, ⟨2, "SELL", 1, 110⟩, ⟨1, "BUY", 1, 100⟩] ≤ 20 := by
  refine ⟨?_, ?_, ?_⟩ <;>
    norm_num [gridProfitRun, calcGridProfit, tradeMatchCredit, List.find?_cons, min_self]

theorem foldl_credit_eq_sum (f : TradeRec → ℚ) (c : TradeRec → Bool) :
    ∀ (l : List TradeRec) (a : ℚ),
      l.foldl (fun p buy => if c buy then p + f buy else p) a
        = a + ((l.filter c).map f).sum := by
  intro l
  induction l with
  | nil => intro a; simp
  | cons b l ih =>
    intro a
    by_cases hb : c b
    · simp only [List.foldl_cons, hb, if_pos, List.filter_cons_of_pos, List.map_cons,
        List.sum_cons]
      rw [ih]
      ring
    · simp only [List.foldl_cons, hb, if_neg, List.filter_cons_of_neg, Bool.not_eq_true]
      rw [ih]

theorem tradeMatchCredit_nonneg (recent : List TradeRec) (buy : TradeRec)
    (hq : ∀ t ∈ recent, 0 ≤ t.quantity) (hqb : 0 ≤ buy.quantity) :
    0 ≤ tradeMatchCredit recent buy := by
  unfold tradeMatchCredit
  cases hfind : recent.find? (fun s =>
      s.side == "SELL" && decide (buy.price < s.price) && decide (buy.level < s.level)) with
  | none => simp
  | some s =>
    have hmem : s ∈ recent := List.mem_of_find?_eq_some hfind
    have hcond := List.find?_some hfind
    simp only [Bool.and_eq_true, decide_eq_true_eq] at hcond
    have hps : buy.price < s.price := hcond.1.2
    exact mul_nonneg (by linarith) (le_min hqb (hq s hmem))

/-- C4 (amended): on each invocation after a new trade is appended,
`_calculate_grid_profit` (with at least two recorded trades) adds, for every
BUY in the last-10 window, the credit `(sellPrice − buyPrice) ·
min(buyQty, sellQty)` of the first SELL in the window with a higher price
and a higher level; there is no matched-pair bookkeeping, so credits are
re-added on later invocations for pairs already counted (and one SELL can be
credited against several BUYs in one invocation); with nonnegative
quantities the running total never decreases. -/
theorem grid_profit_characterization (trades : List TradeRec) (profit : ℚ)
    (hq : ∀ t ∈ trades, 0 ≤ t.quantity) :
    (calcGridProfit trades profit
      = profit + (if 2 ≤ trades.length
          then invocationCredits (trades.drop (trades.length - 10)) else 0))
    ∧ profit ≤ calcGridProfit trades profit := by
  have hchar : calcGridProfit trades profit
      = profit + (if 2 ≤ trades.length
          then invocationCredits (trades.drop (trades.length - 10)) else 0) := by
    unfold calcGridProfit invocationCredits
    by_cases h2 : 2 ≤ trades.length
    · rw [if_pos h2, if_pos h2, foldl_credit_eq_sum]
    · rw [if_neg h2, if_neg h2, add_zero]
  refine ⟨hchar, ?_⟩
  rw [hchar]
  have hsum : 0 ≤ (if 2 ≤ trades.length
      then invocationCredits (trades.drop (trades.length - 10)) else 0) := by
    split_ifs
    · apply List.sum_nonneg
      intro x hx
      simp only [List.mem_map, List.mem_filter] at hx
      obtain ⟨buy, ⟨hbmem, _⟩, rfl⟩ := hx
      have hsub : ∀ t ∈ trades.drop (trades.length - 10), 0 ≤ t.quantity := by
        intro t ht
        exact hq t (List.drop_subset _ _ ht)
      exact tradeMatchCredit_nonneg _ _ hsub (hsub buy hbmem)
    · exact le_refl 0
  linarith

/-- Witness for C4 (amended) on the two-trade history BUY@100 then SELL@110
(quantity 1 each), starting profit 0. -/
theorem grid_profit_characterization_witness :
    (calcGridProfit [⟨1, "BUY", 1, 100⟩, ⟨2, "SELL", 1, 110⟩] 0
      = 0 + (if 2 ≤ ([⟨1, "BUY", 1, 100⟩, ⟨2, "SELL", 1, 110⟩] : List TradeRec).length
          then invocationCredits
            (([⟨1, "BUY", 1, 100⟩, ⟨2, "SELL", 1, 110⟩] : List TradeRec).drop
              (([⟨1, "BUY", 1, 100⟩, ⟨2, "SELL", 1, 110⟩] : List TradeRec).length - 10))
          else 0))
    ∧ (0 : ℚ) ≤ calcGridProfit [⟨1, "BUY", 1, 100⟩, ⟨2, "SELL", 1, 110⟩] 0 :=
  grid_profit_characterization [⟨1, "BUY", 1, 100⟩, ⟨2, "SELL", 1, 110⟩] 0 (by decide)

/- ================================================================
   TWAP scheduler (src/orders/advanced/twap.py)
   ================================================================ -/

/-- One entry of the TWAP `executions` list (timestamp and order id
omitted). -/
structure TwapExec where
  chunkNum : Nat
  quantity : ℚ
  price : ℚ
deriving DecidableEq, Repr

/-- The fields of one TWAP order dict read or written by
`_execute_twap_chunks` and `cancel_twap_order`. -/
structure TwapState where
  totalQuantity : ℚ
  remainingQuantity : ℚ
  chunkSize : ℚ
  numChunks : Nat
  executedChunks : Nat
  executions : List TwapExec
  totalFilled : ℚ
  avgPrice : ℚ
  status : String
deriving Repr

/-- Sum of executed quantities over the executions list. -/
def sumQty (l : List TwapExec) : ℚ :=
  (l.map (fun e => e.quantity)).sum

/-- Sum of quantity·price over the executions list. -/
def sumQtyPrice (l : List TwapExec) : ℚ :=
  (l.map (fun e => e.quantity * e.price)).sum

/-- `_update_average_price` (twap.py lines 280-290): recompute the
volume-weighted average over all execution records; leave `avg_price`
untouched when the total executed quantity is not positive. -/
def updateAveragePrice (st : TwapState) : TwapState :=
  if 0 < sumQty st.executions then
    { st with avgPrice := sumQtyPrice st.executions / sumQty st.executions }
  else st

/-- State update for a chunk whose result is FILLED with `qty` at `price`
(twap.py lines 218-235): append the execution record, bump the totals, and
recompute the average price. -/
def applyChunkFill (st : TwapState) (chunkNum : Nat) (qty price : ℚ) : TwapState :=
  updateAveragePrice
    { st with
      executions := st.executions ++ [⟨chunkNum + 1, qty, price⟩],
      totalFilled := st.totalFilled + qty,
      remainingQuantity := st.remainingQuantity - qty,
      executedChunks := st.executedChunks + 1 }

theorem updateAveragePrice_remainingQuantity (st : TwapState) :
    (updateAveragePrice st).remainingQuantity = st.remainingQuantity := by
  unfold updateAveragePrice; split_ifs <;> rfl

theorem updateAveragePrice_chunkSize (st : TwapState) :
    (updateAveragePrice st).chunkSize = st.chunkSize := by
  unfold updateAveragePrice; split_ifs <;> rfl

theorem updateAveragePrice_executions (st : TwapState) :
    (updateAveragePrice st).executions = st.executions := by
  unfold updateAveragePrice; split_ifs <;> rfl

theorem updateAveragePrice_totalFilled (st : TwapState) :
    (updateAveragePrice st).totalFilled = st.totalFilled := by
  unfold updateAveragePrice; split_ifs <;> rfl

/-- The chunk loop of `_execute_twap_chunks` (twap.py lines 197-251).
`k` counts the loop iterations still to run, so the current Python chunk
index is `c = numChunks - k` with `k` running down from `numChunks`; the
loop exits early when `self.stop_scheduler` is set (the only cancellation
signal it reads) or the requested size is not positive.  `fills c req`
is the gateway's result for chunk `c` with requested size `req`: `some (q,
p)` is a FILLED order with executed quantity `q` at average price `p`, and
`none` covers a failed / not-FILLED chunk, which is skipped.  Returns the
final state together with the list of requested chunk sizes sent to
`_execute_chunk`. -/
def twapChunksAux (stopScheduler : Bool) (fills : Nat → ℚ → Option (ℚ × ℚ))
    (numChunks : Nat) : Nat → TwapState → TwapState × List ℚ
  | 0, st => (st, [])
  | k + 1, st =>
    if stopScheduler then (st, [])
    else
      let c := numChunks - (k + 1)
      let req := if c = numChunks - 1 then st.remainingQuantity
                 else min st.chunkSize st.remainingQuantity
      if req ≤ 0 then (st, [])
      else
        let st1 := match fills c req with
          | some qp => applyChunkFill st c qp.1 qp.2
          | none => st
        let rest := twapChunksAux stopScheduler fills numChunks k st1
        (rest.1, req :: rest.2)

/-- `_execute_twap_chunks` (twap.py lines 197-255): run the chunk loop, then
set `status` to "COMPLETED" — line 254 runs unconditionally on every exit
path, including a `stop_scheduler` break.  The loop never reads the
strategy's `status` field, so a "CANCELLED" status set by
`cancel_twap_order` has no effect on it. -/
def executeTwapChunks (stopScheduler : Bool) (fills : Nat → ℚ → Option (ℚ × ℚ))
    (st : TwapState) : TwapState × List ℚ :=
  let r := twapChunksAux stopScheduler fills st.numChunks st.numChunks st
  ({ r.1 with status := "COMPLETED" }, r.2)

/-- Initial TWAP order dict built by `execute_twap_order` (twap.py lines
83-100), with `chunk_size = total_quantity / num_chunks`. -/
def initTwapState (totalQuantity : ℚ) (numChunks : Nat) : TwapState :=
  ⟨totalQuantity, totalQuantity, totalQuantity / numChunks, numChunks, 0, [], 0, 0, "ACTIVE"⟩

/-- `cancel_twap_order` (twap.py lines 358-376) on a registered strategy:
it only sets the strategy's `status` field to "CANCELLED". -/
def cancelTwapOrder (st : TwapState) : TwapState :=
  { st with status := "CANCELLED" }

/-- C2 (code bug): cancelling a TWAP strategy has no effect on its
execution.  At the concrete failing input — totalQuantity 1 split into 2
chunks, `cancel_twap_order` applied, every chunk filling as requested — the
loop still executes both chunks (requested sizes [1/2, 1/2]) and the
terminal status is "COMPLETED", not "CANCELLED": the loop checks only the
never-set `stop_scheduler` event, sleeps uninterruptibly, and line 254
overwrites the status on every exit path. -/
theorem twap_cancel_ignored :
    ((cancelTwapOrder (initTwapState 1 2)).status = "CANCELLED")
    ∧ ((executeTwapChunks false (fun _ req => some (req, 100))
          (cancelTwapOrder (initTwapState 1 2))).1.executedChunks = 2)
    ∧ ((executeTwapChunks false (fun _ req => some (req, 100))
          (cancelTwapOrder (initTwapState 1 2))).2 = [1/2, 1/2])
    ∧ ((executeTwapChunks false (fun _ req => some (req, 100))
          (cancelTwapOrder (initTwapState 1 2))).1.status = "COMPLETED")
    ∧ (∀ (stopSched : Bool) (fills : Nat → ℚ → Option (ℚ × ℚ)) (st : TwapState),
        (executeTwapChunks stopSched fills st).1.status = "COMPLETED") := by
  refine ⟨rfl, ?_, ?_, rfl, fun _ _ _ => rfl⟩ <;>
    norm_num [executeTwapChunks, twapChunksAux, applyChunkFill, updateAveragePrice,
      initTwapState, cancelTwapOrder, sumQty, sumQtyPrice, min_def]

theorem applyChunkFill_remainingQuantity (st : TwapState) (c : Nat) (q p : ℚ) :
    (applyChunkFill st c q p).remainingQuantity = st.remainingQuantity - q := by
  unfold applyChunkFill
  rw [updateAveragePrice_remainingQuantity]

theorem applyChunkFill_chunkSize (st : TwapState) (c : Nat) (q p : ℚ) :
    (applyChunkFill st c q p).chunkSize = st.chunkSize := by
  unfold applyChunkFill
  rw [updateAveragePrice_chunkSize]

/-- Requested chunk sizes under ideal execution (every chunk fills exactly
its requested quantity): with `k` chunks left, a positive chunk size and
`remainingQuantity = k · chunkSize`, the requested sizes are `k` copies of
`chunkSize` and sum to the remaining quantity. -/
theorem twapChunksAux_full_fill (prices : Nat → ℚ) (numChunks : Nat) :
    ∀ (k : Nat) (st : TwapState), k ≤ numChunks → 0 < st.chunkSize →
      st.remainingQuantity = k * st.chunkSize →
      ((twapChunksAux false (fun c req => some (req, prices c)) numChunks k st).2.sum
          = st.remainingQuantity)
      ∧ ((twapChunksAux false (fun c req => some (req, prices c)) numChunks k st).2.length
          = k) := by
  intro k
  induction k with
  | zero =>
    intro st _ _ hrem
    simp [twapChunksAux, hrem]
  | succ k ih =>
    intro st hk hcs hrem
    rcases Nat.eq_zero_or_pos k with hk0 | hkpos
    · subst hk0
      have hlast : numChunks - (0 + 1) = numChunks - 1 := rfl
      have hreq : st.remainingQuantity = st.chunkSize := by
        rw [hrem]; ring
      have hpos : ¬ st.remainingQuantity ≤ 0 := by rw [hreq]; linarith
      have hpos2 : ¬ st.chunkSize ≤ 0 := by linarith
      simp only [twapChunksAux, if_neg (Bool.false_ne_true), Bool.false_eq_true,
        if_false, hlast, if_pos rfl, if_neg hpos]
      simp [hreq]
      rw [if_neg hpos2]
      simp
    · have hc : numChunks - (k + 1) ≠ numChunks - 1 := by omega
      have hmin : min st.chunkSize st.remainingQuantity = st.chunkSize := by
        apply min_eq_left
        rw [hrem]
        have hk2 : (2 : ℚ) ≤ ((k + 1 : ℕ) : ℚ) := by
          exact_mod_cast (by omega : 2 ≤ k + 1)
        nlinarith [hcs, hk2]
      have hpos : ¬ st.chunkSize ≤ 0 := by linarith
      have hstep :
          twapChunksAux false (fun c req => some (req, prices c)) numChunks (k + 1) st
            = (let st1 := applyChunkFill st (numChunks - (k + 1)) st.chunkSize
                  (prices (numChunks - (k + 1)));
               let rest := twapChunksAux false (fun c req => some (req, prices c)) numChunks k st1;
               (rest.1, st.chunkSize :: rest.2)) := by
        simp only [twapChunksAux, Bool.false_eq_true, if_false, if_neg hc, hmin,
          if_neg hpos]
      rw [hstep]
      have hcs1 : 0 < (applyChunkFill st (numChunks - (k + 1)) st.chunkSize
          (prices (numChunks - (k + 1)))).chunkSize := by
        rw [applyChunkFill_chunkSize]; exact hcs
      have hrem1 : (applyChunkFill st (numChunks - (k + 1)) st.chunkSize
            (prices (numChunks - (k + 1)))).remainingQuantity
          = k * (applyChunkFill st (numChunks - (k + 1)) st.chunkSize
            (prices (numChunks - (k + 1)))).chunkSize := by
        rw [applyChunkFill_remainingQuantity, applyChunkFill_chunkSize, hrem]
        push_cast
        ring
      obtain ⟨hsum, hlen⟩ := ih _ (by omega) hcs1 hrem1
      constructor
      · simp only [List.sum_cons, hsum, applyChunkFill_remainingQuantity,
          applyChunkFill_chunkSize, hrem]
        ring
      · simp [hlen]

/-- C5: for a TWAP with numChunks ≥ 1 and positive totalQuantity, under
ideal execution (each chunk fills exactly its requested size) the loop
requests `remainingQuantity` for the final chunk and
`min(chunkSize, remainingQuantity)` otherwise, and the requested sizes —
one per chunk — sum to exactly totalQuantity, the final chunk absorbing any
division remainder. -/
theorem twap_chunk_sizes_sum_total (n : Nat) (total : ℚ) (prices : Nat → ℚ)
    (hn : 1 ≤ n) (htotal : 0 < total) :
    ((executeTwapChunks false (fun c req => some (req, prices c))
        (initTwapState total n)).2.sum = total)
    ∧ ((executeTwapChunks false (fun c req => some (req, prices c))
        (initTwapState total n)).2.length = n) := by
  have hnq : ((n : ℚ)) ≠ 0 := by
    have : (1 : ℚ) ≤ (n : ℚ) := by exact_mod_cast hn
    linarith
  have hcs : 0 < (initTwapState total n).chunkSize := by
    show 0 < total / (n : ℚ)
    apply div_pos htotal
    have : (1 : ℚ) ≤ (n : ℚ) := by exact_mod_cast hn
    linarith
  have hrem : (initTwapState total n).remainingQuantity
      = n * (initTwapState total n).chunkSize := by
    show total = (n : ℚ) * (total / (n : ℚ))
    field_simp
  have h := twapChunksAux_full_fill prices n n (initTwapState total n)
    (le_refl n) hcs hrem
  refine ⟨?_, ?_⟩
  · show (twapChunksAux false (fun c req => some (req, prices c))
      n n (initTwapState total n)).2.sum = total
    rw [h.1]
    rfl
  · show (twapChunksAux false (fun c req => some (req, prices c))
      n n (initTwapState total n)).2.length = n
    exact h.2

/-- Witness for C5: totalQuantity 1 in 3 chunks — the spec's own example —
sums exactly to 1. -/
theorem twap_chunk_sizes_sum_total_witness :
    ((executeTwapChunks false (fun _ req => some (req, (100 : ℚ)))
        (initTwapState 1 3)).2.sum = 1)
    ∧ ((executeTwapChunks false (fun _ req => some (req, (100 : ℚ)))
        (initTwapState 1 3)).2.length = 3) :=
  twap_chunk_sizes_sum_total 3 1 (fun _ => 100) (by norm_num) (by norm_num)

/-- The per-state invariant of the TWAP fill bookkeeping: `total_filled`
equals the sum of execution quantities, `avg_price` is the volume-weighted
mean whenever the executed volume is positive, and all recorded quantities
are positive. -/
def TwapChunkInv (st : TwapState) : Prop :=
  st.totalFilled = sumQty st.executions
  ∧ (0 < sumQty st.executions →
      st.avgPrice = sumQtyPrice st.executions / sumQty st.executions)
  ∧ (∀ e ∈ st.executions, 0 < e.quantity)

theorem applyChunkFill_inv (st : TwapState) (c : Nat) (q p : ℚ)
    (hq : 0 < q) (h : TwapChunkInv st) : TwapChunkInv (applyChunkFill st c q p) := by
  obtain ⟨hfill, _, hmem⟩ := h
  have hexec : (applyChunkFill st c q p).executions
      = st.executions ++ [⟨c + 1, q, p⟩] := by
    unfold applyChunkFill
    rw [updateAveragePrice_executions]
  have hsum : sumQty (st.executions ++ [⟨c + 1, q, p⟩]) = sumQty st.executions + q := by
    unfold sumQty
    rw [List.map_append, List.sum_append]
    simp
  refine ⟨?_, ?_, ?_⟩
  · have htf : (applyChunkFill st c q p).totalFilled = st.totalFilled + q := by
      unfold applyChunkFill
      rw [updateAveragePrice_totalFilled]
    rw [htf, hexec, hsum, hfill]
  · intro hpos
    rw [hexec] at hpos ⊢
    unfold applyChunkFill updateAveragePrice
    rw [if_pos (by simpa using hpos)]
  · intro e he
    rw [hexec] at he
    rcases List.mem_append.mp he with h1 | h1
    · exact hmem e h1
    · simp only [List.mem_singleton] at h1
      subst h1
      exact hq

theorem twapChunksAux_inv (stopSched : Bool) (fills : Nat → ℚ → Option (ℚ × ℚ))
    (numChunks : Nat)
    (hpos : ∀ c req q p, fills c req = some (q, p) → 0 < q) :
    ∀ (k : Nat) (st : TwapState), TwapChunkInv st →
      TwapChunkInv (twapChunksAux stopSched fills numChunks k st).1 := by
  intro k
  induction k with
  | zero => intro st h; exact h
  | succ k ih =>
    intro st h
    show TwapChunkInv (twapChunksAux stopSched fills numChunks (k + 1) st).1
    rw [twapChunksAux]
    dsimp only
    set req := if numChunks - (k + 1) = numChunks - 1 then st.remainingQuantity
               else min st.chunkSize st.remainingQuantity
    split_ifs with h1 h2
    · exact h
    · exact h
    · cases hf : fills (numChunks - (k + 1)) req with
      | none => simp only [hf]; exact ih st h
      | some qp =>
        simp only [hf]
        exact ih _ (applyChunkFill_inv st _ qp.1 qp.2 (hpos _ _ qp.1 qp.2 hf) h)

/-- C8: for every TWAP strategy, over any run of the chunk loop in which
every FILLED chunk result has positive executed quantity, the final state
satisfies `total_filled = Σ executions.quantity`, and whenever at least one
execution has been recorded, `avg_price = Σ(qty·price)/Σqty` over the
executions list.  (The invariant is preserved by every single chunk update —
`applyChunkFill_inv` — so it holds after every chunk, not only at the
end.) -/
theorem twap_fill_invariant (stopSched : Bool) (fills : Nat → ℚ → Option (ℚ × ℚ))
    (total : ℚ) (n : Nat)
    (hpos : ∀ c req q p, fills c req = some (q, p) → 0 < q) :
    ((executeTwapChunks stopSched fills (initTwapState total n)).1.totalFilled
      = sumQty (executeTwapChunks stopSched fills (initTwapState total n)).1.executions)
    ∧ ((executeTwapChunks stopSched fills (initTwapState total n)).1.executions ≠ [] →
        (executeTwapChunks stopSched fills (initTwapState total n)).1.avgPrice
          = sumQtyPrice (executeTwapChunks stopSched fills (initTwapState total n)).1.executions
            / sumQty (executeTwapChunks stopSched fills (initTwapState total n)).1.executions) := by
  have hinit : TwapChunkInv (initTwapState total n) := by
    refine ⟨rfl, ?_, ?_⟩
    · intro hp
      exfalso
      simp [sumQty, initTwapState] at hp
    · intro e he
      simp [initTwapState] at he
  have hrun := twapChunksAux_inv stopSched fills n hpos n (initTwapState total n) hinit
  have hfields : (executeTwapChunks stopSched fills (initTwapState total n)).1.totalFilled
        = (twapChunksAux stopSched fills n n (initTwapState total n)).1.totalFilled
      ∧ (executeTwapChunks stopSched fills (initTwapState total n)).1.executions
        = (twapChunksAux stopSched fills n n (initTwapState total n)).1.executions
      ∧ (executeTwapChunks stopSched fills (initTwapState total n)).1.avgPrice
        = (twapChunksAux stopSched fills n n (initTwapState total n)).1.avgPrice :=
    ⟨rfl, rfl, rfl⟩
  obtain ⟨hf1, hf2, hf3⟩ := hfields
  obtain ⟨hfill, havg, hmem⟩ := hrun
  refine ⟨by rw [hf1, hf2, hfill], ?_⟩
  intro hne
  rw [hf2] at hne
  have hq : 0 < sumQty (twapChunksAux stopSched fills n n (initTwapState total n)).1.executions := by
    unfold sumQty
    apply List.sum_pos
    · intro x hx
      simp only [List.mem_map] at hx
      obtain ⟨e, he, rfl⟩ := hx
      exact hmem e he
    · simpa using hne
  rw [hf3, hf2]
  exact havg hq

/-- Witness for C8: two chunks of total 1, every chunk filling quantity 1/2
at price 100. -/
theorem twap_fill_invariant_witness :
    ((executeTwapChunks false (fun _ _ => some ((1 : ℚ)/2, 100))
        (initTwapState 1 2)).1.totalFilled
      = sumQty (executeTwapChunks false (fun _ _ => some ((1 : ℚ)/2, 100))
        (initTwapState 1 2)).1.executions)
    ∧ ((executeTwapChunks false (fun _ _ => some ((1 : ℚ)/2, 100))
        (initTwapState 1 2)).1.executions ≠ [] →
        (executeTwapChunks false (fun _ _ => some ((1 : ℚ)/2, 100))
          (initTwapState 1 2)).1.avgPrice
          = sumQtyPrice (executeTwapChunks false (fun _ _ => some ((1 : ℚ)/2, 100))
              (initTwapState 1 2)).1.executions
            / sumQty (executeTwapChunks false (fun _ _ => some ((1 : ℚ)/2, 100))
              (initTwapState 1 2)).1.executions) :=
  twap_fill_invariant false (fun _ _ => some ((1 : ℚ)/2, 100)) 1 2
    (by
      intro c req q p h
      have hq : q = (1 : ℚ)/2 := by
        cases h
        rfl
      rw [hq]
      norm_num)

/- ================================================================
   TWAP request validation (src/client/validator.py, TWAPOrderRequest)
   ================================================================ -/

/-- Chunk count computed by `execute_twap_order` (twap.py line 70):
`num_chunks = duration_minutes // interval_minutes` (floor division of the
already-validated positive integers). -/
def numChunksOf (durationMinutes intervalMinutes : Nat) : Nat :=
  durationMinutes / intervalMinutes

/-- `TWAPOrderRequest` validation (validator.py lines 128-156), run by
`execute_twap_order` before anything is placed or scheduled: the pydantic
field constraints `total_quantity > 0`, `0 < duration_minutes ≤ 1440`,
`interval_minutes > 0`, the custom check `total_quantity ≤ max_quantity·10`,
and the custom interval check, which rejects whenever
`interval_minutes ≥ duration_minutes`. -/
def validateTwapRequest (maxQuantity totalQuantity : ℚ)
    (durationMinutes intervalMinutes : Nat) : Except String Unit :=
  if totalQuantity ≤ 0 then .error "Total quantity must be positive"
  else if maxQuantity * 10 < totalQuantity then .error "Total quantity too large"
  else if durationMinutes = 0 then .error "Duration must be positive"
  else if 1440 < durationMinutes then .error "Duration must be at most 1440"
  else if intervalMinutes = 0 then .error "Interval must be positive"
  else if durationMinutes ≤ intervalMinutes then
    .error "Interval must be less than total duration"
  else .ok ()

/-- C9 counterexample: a request with intervalMinutes = durationMinutes = 60
yields numChunks = 1 — not zero — yet is rejected by
`TWAPOrderRequest.validate_interval` ("Interval must be less than total
duration"), so rejection is not equivalent to the chunk computation yielding
zero. -/
theorem twap_equal_interval_rejected :
    numChunksOf 60 60 = 1
    ∧ validateTwapRequest 100 1 60 60 = .error "Interval must be less than total duration" := by
  constructor
  · rfl
  · norm_num [validateTwapRequest]

/-- C9 (amended): numChunks is computed as floor(durationMinutes /
intervalMinutes), and a request (with the other field constraints satisfied)
is rejected before any order is placed if and only if intervalMinutes ≥
durationMinutes — a strictly stronger condition than "zero chunks": every
accepted request has numChunks ≥ 1, but a request with intervalMinutes equal
to durationMinutes is rejected even though it would yield one chunk. -/
theorem twap_validation_characterization (maxQ totalQ : ℚ) (d i : Nat)
    (hq : 0 < totalQ) (hqmax : totalQ ≤ maxQ * 10)
    (hd : 0 < d) (hd2 : d ≤ 1440) (hi : 0 < i) :
    (validateTwapRequest maxQ totalQ d i = .ok () ↔ i < d)
    ∧ (i < d → 1 ≤ numChunksOf d i) := by
  constructor
  · unfold validateTwapRequest
    rw [if_neg (by linarith), if_neg (by linarith), if_neg (by omega),
      if_neg (by omega), if_neg (by omega)]
    split_ifs with hle
    · constructor
      · intro hcontra
        exact absurd hcontra (by simp)
      · intro hlt
        omega
    · simp
      omega
  · intro hlt
    unfold numChunksOf
    rw [Nat.one_le_div_iff hi]
    omega

/-- Witness for C9 (amended): duration 60, interval 20 is accepted and
yields 3 chunks. -/
theorem twap_validation_characterization_witness :
    ((validateTwapRequest 100 1 60 20 = .ok () ↔ 20 < 60)
      ∧ (20 < 60 → 1 ≤ numChunksOf 60 20)) :=
  twap_validation_characterization 100 1 60 20
    (by norm_num) (by norm_num) (by norm_num) (by norm_num) (by norm_num)

end AlphaTrade

